import Mathlib

/-!
# Verification of the qvm-sync packer protocol

A shallow embedding of the qvm-sync sender/receiver core (Go sources in
`packer/`), together with theorems settling the specification claims.

Conventions:
* machine integers (`uint32`, `uint64`) are modelled as `Nat`; wrap-around is
  irrelevant for the properties below because all quantities stay far below
  the respective bounds (path lengths are capped at 16384, file lengths at
  10^12, mode words at 2^32);
* byte streams are `List Nat` (each element a byte value);
* fallible Go functions returning `error` become `Except String _`.
-/

namespace QvmSync

/-! ## Constants (types.go, unpack.go) -/

/-- `MaxPathLength` from types.go: maximum path length including NUL. -/
def MaxPathLength : Nat := 16384

/-- `MaxTransfer` from unpack.go: maximum file length accepted (10^12). -/
def MaxTransfer : Nat := 1000000000000

/-- `FileCrcOff` from types.go. -/
def FileCrcOff : Nat := 0

/-- `FileCrcAtimeNsec` from types.go: crc in place of atime_nsec, both phases. -/
def FileCrcAtimeNsec : Nat := 1

/-- `FileCrcAtimeNsecMetadata` from types.go (the default crc usage):
crc in place of atime_nsec in the metadata phase. -/
def FileCrcAtimeNsecMetadata : Nat := 2

/-! ## Go `os.FileMode` bits

The sender stores `uint32(info.Mode())` in the header, so the type bits are
the generic Go `os.FileMode` bits, not raw POSIX bits. -/

/-- `os.ModeDir` = 1 <<< 31. -/
def ModeDir : Nat := 2147483648

/-- `os.ModeSymlink` = 1 <<< 27. -/
def ModeSymlink : Nat := 134217728

/-- `os.ModeDevice` = 1 <<< 26. -/
def ModeDevice : Nat := 67108864

/-- `os.ModeNamedPipe` = 1 <<< 25. -/
def ModeNamedPipe : Nat := 33554432

/-- `os.ModeSocket` = 1 <<< 24. -/
def ModeSocket : Nat := 16777216

/-- `os.ModeCharDevice` = 1 <<< 21. -/
def ModeCharDevice : Nat := 2097152

/-- `os.ModeIrregular` = 1 <<< 19. -/
def ModeIrregular : Nat := 524288

/-- `os.ModeType`: the union of all type bits (used by `FileMode.IsRegular`). -/
def ModeType : Nat :=
  ModeDir ||| ModeSymlink ||| ModeNamedPipe ||| ModeSocket ||| ModeDevice |||
    ModeCharDevice ||| ModeIrregular

/-- `regularOrSymlink` from pack.go: the mask used by `sendItemMetadata` to
decide whether an entry is appended to the send list (append iff
`mode &&& regularOrSymlink == 0`). -/
def regularOrSymlink : Nat :=
  ModeDir ||| ModeNamedPipe ||| ModeSocket ||| ModeDevice ||| ModeIrregular

/-- Go `FileMode.IsRegular`: no type bit set. -/
def modeIsRegular (m : Nat) : Bool := m &&& ModeType == 0

/-- Go `FileMode.IsDir`: the directory bit is set. -/
def modeIsDir (m : Nat) : Bool := m &&& ModeDir != 0

/-- Go `mode & os.ModeSymlink != 0`. -/
def modeIsSymlink (m : Nat) : Bool := m &&& ModeSymlink != 0

/-! ## File headers (types.go / part_006) -/

/-- `fileHeaderData` from types.go: the 32-byte wire header. -/
structure fileHeaderData where
  NameLen : Nat
  Mode : Nat
  FileLen : Nat
  Atime : Nat
  AtimeNsec : Nat
  Mtime : Nat
  MtimeNsec : Nat
deriving DecidableEq, Repr

/-- `fileHeader.isRegular` from types.go. -/
def fileHeaderData.isRegular (h : fileHeaderData) : Bool := modeIsRegular h.Mode

/-- `fileHeader.isSymlink` from types.go. -/
def fileHeaderData.isSymlink (h : fileHeaderData) : Bool := modeIsSymlink h.Mode

/-- `fileHeader.isDir` from types.go. -/
def fileHeaderData.isDir (h : fileHeaderData) : Bool := modeIsDir h.Mode

/-- The list of field-difference messages accumulated by `fileHeader.Eq`
(part_006): compares `NameLen`, `Mode`, `FileLen` and — unless both headers
denote symlinks — `Atime`, `AtimeNsec`, `Mtime`, `MtimeNsec`. -/
def fileHeaderData.EqErrs (hdr other : fileHeaderData) : List String :=
  (if hdr.NameLen ≠ other.NameLen then ["NameLen"] else []) ++
  (if hdr.Mode ≠ other.Mode then ["Mode"] else []) ++
  (if hdr.FileLen ≠ other.FileLen then ["FileLen"] else []) ++
  (if ¬(hdr.isSymlink ∧ other.isSymlink) then
    (if hdr.Atime ≠ other.Atime then ["Atime"] else []) ++
    (if hdr.AtimeNsec ≠ other.AtimeNsec then ["AtimeNsec"] else []) ++
    (if hdr.Mtime ≠ other.Mtime then ["Mtime"] else []) ++
    (if hdr.MtimeNsec ≠ other.MtimeNsec then ["MtimeNsec"] else [])
  else [])

/-- `fileHeader.Eq` from part_006: true iff no field difference was recorded. -/
def fileHeaderData.Eq (hdr other : fileHeaderData) : Bool :=
  (hdr.EqErrs other).length == 0

/-- `fileHeader.Diff` from types.go: like `EqErrs` but the `Atime`/`AtimeNsec`
comparisons are commented out in the source — only `Mtime`/`MtimeNsec` are
compared in the non-symlink branch. -/
def fileHeaderData.Diff (hdr other : fileHeaderData) : List String :=
  (if hdr.NameLen ≠ other.NameLen then ["NameLen"] else []) ++
  (if hdr.Mode ≠ other.Mode then ["Mode"] else []) ++
  (if hdr.FileLen ≠ other.FileLen then ["FileLen"] else []) ++
  (if ¬(hdr.isSymlink ∧ other.isSymlink) then
    (if hdr.Mtime ≠ other.Mtime then ["Mtime"] else []) ++
    (if hdr.MtimeNsec ≠ other.MtimeNsec then ["MtimeNsec"] else [])
  else [])

/-! ## Path codec (part_006 / part_007) -/

/-- `ReadPath` from part_007: reads a `length`-byte NUL-terminated path from
the stream.  `io.ReadFull` is modelled by requiring `length` bytes to be
available; the returned value is the bytes before the terminating NUL. -/
def ReadPath (inp : List Nat) (length : Nat) : Except String (List Nat) :=
  if length > MaxPathLength - 1 then .error "path too large"
  else if length == 0 then .ok []
  else if inp.length < length then .error "read err"
  else
    let nBuf := inp.take length
    if nBuf.getD (length - 1) 1 != 0 then .error "expected NULL-terminated string"
    else .ok (nBuf.take (length - 1))

/-- `WritePath` from part_007: writes the path bytes followed by a NUL,
or nothing for the empty path. -/
def WritePathBytes (s : String) : List Nat :=
  if s.length == 0 then [] else s.toList.map Char.toNat ++ [0]

/-! ## Little-endian integer encodings (encoding/binary, little-endian) -/

/-- 4-byte little-endian encoding of a `uint32`. -/
def le32 (n : Nat) : List Nat :=
  [n % 256, n / 256 % 256, n / 65536 % 256, n / 16777216 % 256]

/-- 8-byte little-endian encoding of a `uint64`. -/
def le64 (n : Nat) : List Nat :=
  le32 (n % 4294967296) ++ le32 (n / 4294967296 % 4294967296)

/-! ## Stage-1 file metadata handling (unpack.go) -/

/-- Outcome of `Receiver.receiveFileMetadata` on one file/symlink header. -/
inductive MetaOutcome where
  | request
  | keep
  | fail
deriving DecidableEq, Repr

/-- `Receiver.receiveFileMetadata` from unpack.go: checks the inbound length
via `countBytes` (a receiver built by `NewReceiver` has `byteLimit = 0`, so
only the `MaxTransfer` bound applies), requests the current index when no
local entry exists, and otherwise requests it exactly when the header built
from the local stat is not `Eq` to the inbound header.  `localStat` is the
header built from `os.Lstat` of the header's path (`none` when the lstat
fails with not-exists). -/
def receiveFileMetadata (localStat : Option fileHeaderData)
    (hdr : fileHeaderData) : MetaOutcome :=
  if hdr.FileLen > MaxTransfer then .fail
  else
    match localStat with
    | none => .request
    | some localFile => if localFile.Eq hdr then .keep else .request

/-- The metadata comparison as claim C3 words it (refinement definition
following the spec text, to compare against the source-derived `Eq`): the
headers differ in `NameLen`, `Mode`, `FileLen`, or — when the two headers
are not both symlinks — `Mtime`/`MtimeNsec`; the atime fields never
participate. -/
def specC3Differs (lh hdr : fileHeaderData) : Bool :=
  lh.NameLen != hdr.NameLen || lh.Mode != hdr.Mode || lh.FileLen != hdr.FileLen ||
    (!(lh.isSymlink && hdr.isSymlink) &&
      (lh.Mtime != hdr.Mtime || lh.MtimeNsec != hdr.MtimeNsec))

/-- Field-level difference predicate equivalent to the negation of the source
`fileHeader.Eq` (part_006): like `specC3Differs` but with the `Atime` and
`AtimeNsec` fields also compared in the non-symlink branch. -/
def eqDiffers (lh hdr : fileHeaderData) : Bool :=
  lh.NameLen != hdr.NameLen || lh.Mode != hdr.Mode || lh.FileLen != hdr.FileLen ||
    (!(lh.isSymlink && hdr.isSymlink) &&
      (lh.Atime != hdr.Atime || lh.AtimeNsec != hdr.AtimeNsec ||
        lh.Mtime != hdr.Mtime || lh.MtimeNsec != hdr.MtimeNsec))

/-- A local regular-file header (mode `0o644`: permission bits only, no type
bits, hence regular). -/
def c3LocalHeader : fileHeaderData :=
  { NameLen := 10, Mode := 420, FileLen := 12,
    Atime := 100, AtimeNsec := 1, Mtime := 200, MtimeNsec := 2 }

/-- An inbound header identical to `c3LocalHeader` except in the atime
fields. -/
def c3InboundHeader : fileHeaderData :=
  { NameLen := 10, Mode := 420, FileLen := 12,
    Atime := 999, AtimeNsec := 998, Mtime := 200, MtimeNsec := 2 }

/-! ## Sender-side filesystem model

`os.Lstat`/`ioutil.ReadDir` are modelled by a static tree of entries.  Each
node carries the stat times, the permission bits (`mode & 0o7777`, hence
`Fin 4096`) and — for regular files and symlinks — the byte content
(`stat.Size` is the content length).  Symbolic links on Linux always stat
with permission bits `0o777`, which is how `os.Symlink` creates them, so the
model fixes symlink permissions to `511`. -/

/-- Entry kinds that are neither directory, regular file nor symlink.  A Go
char-device mode carries both `ModeDevice` and `ModeCharDevice`. -/
inductive OtherKind where
  | namedPipe
  | socket
  | device
  | charDevice
  | irregular
deriving DecidableEq, Repr, Fintype

/-- The Go `os.FileMode` type bits of an `OtherKind` entry. -/
def OtherKind.modeBits : OtherKind → Nat
  | .namedPipe => ModeNamedPipe
  | .socket => ModeSocket
  | .device => ModeDevice
  | .charDevice => ModeDevice ||| ModeCharDevice
  | .irregular => ModeIrregular

/-- The four stat time fields reported by `syscall.Stat_t`. -/
structure StatTimes where
  Atime : Nat
  AtimeNsec : Nat
  Mtime : Nat
  MtimeNsec : Nat
deriving DecidableEq, Repr

/-- A sender-side filesystem tree. -/
inductive FSNode where
  | file (name : String) (st : StatTimes) (perm : Fin 4096) (content : List Nat)
  | symlink (name : String) (st : StatTimes) (target : List Nat)
  | other (name : String) (st : StatTimes) (perm : Fin 4096) (k : OtherKind)
  | dir (name : String) (st : StatTimes) (perm : Fin 4096) (children : List FSNode)

/-- The entry's name (final path component). -/
def FSNode.name : FSNode → String
  | .file n _ _ _ => n
  | .symlink n _ _ => n
  | .other n _ _ _ => n
  | .dir n _ _ _ => n

/-- The entry's stat times. -/
def FSNode.st : FSNode → StatTimes
  | .file _ st _ _ => st
  | .symlink _ st _ => st
  | .other _ st _ _ => st
  | .dir _ st _ _ => st

/-- Regular-file content (empty for other kinds). -/
def FSNode.content : FSNode → List Nat
  | .file _ _ _ c => c
  | _ => []

/-- Is the node a directory? -/
def FSNode.isDirNode : FSNode → Bool
  | .dir _ _ _ _ => true
  | _ => false

/-- Is the node a regular file? -/
def FSNode.isFileNode : FSNode → Bool
  | .file _ _ _ _ => true
  | _ => false

/-- Is the node a symlink? -/
def FSNode.isLinkNode : FSNode → Bool
  | .symlink _ _ _ => true
  | _ => false

/-- Is the node of some other kind? -/
def FSNode.isOtherNode : FSNode → Bool
  | .other _ _ _ _ => true
  | _ => false

/-- `uint32(info.Mode())`: the Go mode word `os.Lstat` reports for the
node. -/
def statMode : FSNode → Nat
  | .file _ _ perm _ => perm.val
  | .symlink _ _ _ => ModeSymlink ||| 511
  | .other _ _ perm k => k.modeBits ||| perm.val
  | .dir _ _ perm _ => ModeDir ||| perm.val

/-- `stat.Size` for the node: content length for regular files, target
length for symlinks (0 for the rest; directory sizes are irrelevant because
`newFileHeaderFromStat` zeroes them). -/
def nodeSize : FSNode → Nat
  | .file _ _ _ c => c.length
  | .symlink _ _ t => t.length
  | .other _ _ _ _ => 0
  | .dir _ _ _ _ => 0

/-- `newFileHeaderFromStat` from types.go: `NameLen` is the path length plus
the NUL, the mode word and times come from the stat, and `FileLen` is the
stat size with directories zeroed. -/
def newFileHeaderFromStat (path : String) (t : FSNode) : fileHeaderData :=
  { NameLen := path.length + 1
    Mode := statMode t
    FileLen := nodeSize t
    Atime := t.st.Atime
    AtimeNsec := t.st.AtimeNsec
    Mtime := t.st.Mtime
    MtimeNsec := t.st.MtimeNsec }

/-! ## CRC-32 (hash/crc32, IEEE polynomial) -/

/-- One shift step of the reflected CRC-32 with the IEEE polynomial
`0xEDB88320`. -/
def crcStep (c : Nat) : Nat :=
  if c % 2 == 1 then (c / 2) ^^^ 0xEDB88320 else c / 2

/-- Fold one data byte into the running CRC (XOR into the low byte, then
eight polynomial shift steps). -/
def crcByte (c b : Nat) : Nat :=
  crcStep (crcStep (crcStep (crcStep (crcStep (crcStep (crcStep (crcStep
    (c ^^^ b))))))))

/-- CRC-32 (IEEE) of a byte sequence, as computed by
`crc32.Update(0, crc32.IEEETable, data)`: pre- and post-complemented. -/
def crc32 (data : List Nat) : Nat :=
  0xFFFFFFFF ^^^ data.foldl crcByte 0xFFFFFFFF

/-- `CrcFile` from part_007: 0 for non-regular entries and for empty files,
otherwise the CRC-32 of the file content. -/
def CrcFile : FSNode → Nat
  | .file _ _ _ content => if content.length == 0 then 0 else crc32 content
  | _ => 0

/-! ## Sender walker (pack.go) -/

/-- The header written by `Sender.sendItemMetadata`: built from the stat and,
for non-directories when the CRC usage includes metadata, with `AtimeNsec`
replaced by the file CRC. -/
def sendItemMetadataHeader (crcUsage : Nat) (path : String) (t : FSNode) :
    fileHeaderData :=
  let header := newFileHeaderFromStat path t
  if header.isDir then header
  else if crcUsage == FileCrcAtimeNsec || crcUsage == FileCrcAtimeNsecMetadata
  then { header with AtimeNsec := CrcFile t }
  else header

/-- `filepath.Join` for a directory path and a child name. -/
def joinPath (dir leaf : String) : String := dir ++ "/" ++ leaf

mutual

/-- `Sender.osWalk` from pack.go, as the list of emitted metadata events
(path plus the stat'd node): a symlink is skipped when `ig` (ignore-symlinks)
is set; a non-directory yields one event; a directory yields one event on
entry, the events of its children, and one more event on exit (the source
re-stats the directory, which in this static model yields the same stat). -/
def osWalkNode (ig : Bool) (path : String) (t : FSNode) :
    List (String × FSNode) :=
  match t with
  | .symlink n st tgt => if ig then [] else [(path, .symlink n st tgt)]
  | .dir n st perm cs =>
      (path, FSNode.dir n st perm cs) ::
        (osWalkForest ig path cs ++ [(path, FSNode.dir n st perm cs)])
  | .file n st perm c => [(path, .file n st perm c)]
  | .other n st perm k => [(path, .other n st perm k)]

/-- The walk over a directory's children, in `ioutil.ReadDir` order. -/
def osWalkForest (ig : Bool) (dirPath : String) (ts : List FSNode) :
    List (String × FSNode) :=
  match ts with
  | [] => []
  | c :: rest =>
      osWalkNode ig (joinPath dirPath c.name) c ++ osWalkForest ig dirPath rest

end

mutual

/-- Every entry of the tree, with its full path, in preorder (each entry
exactly once). -/
def entriesNode (path : String) (t : FSNode) : List (String × FSNode) :=
  match t with
  | .dir n st perm cs => (path, FSNode.dir n st perm cs) :: entriesForest path cs
  | x => [(path, x)]

/-- The entries of a directory's children. -/
def entriesForest (dirPath : String) (ts : List FSNode) :
    List (String × FSNode) :=
  match ts with
  | [] => []
  | c :: rest =>
      entriesNode (joinPath dirPath c.name) c ++ entriesForest dirPath rest

end

/-- The sender's send list after a walk: `sendItemMetadata` appends the
emitted path exactly when `mode &&& regularOrSymlink == 0`, so the send list
is that filter of the emitted metadata events. -/
def walkSendList (ig : Bool) (base : String) (t : FSNode) : List String :=
  (osWalkNode ig base t).filterMap fun e =>
    if statMode e.2 &&& regularOrSymlink == 0 then some e.1 else none

/-- The wire bytes of one metadata event: the 32-byte header followed by the
NUL-terminated path. -/
def marshalMetadataEvent (crcUsage : Nat) (e : String × FSNode) : List Nat :=
  (le32 (sendItemMetadataHeader crcUsage e.1 e.2).NameLen ++
    le32 (sendItemMetadataHeader crcUsage e.1 e.2).Mode ++
    le64 (sendItemMetadataHeader crcUsage e.1 e.2).FileLen ++
    le32 (sendItemMetadataHeader crcUsage e.1 e.2).Atime ++
    le32 (sendItemMetadataHeader crcUsage e.1 e.2).AtimeNsec ++
    le32 (sendItemMetadataHeader crcUsage e.1 e.2).Mtime ++
    le32 (sendItemMetadataHeader crcUsage e.1 e.2).MtimeNsec) ++
  WritePathBytes e.1

/-- `Sender.transmitDirectory` from pack.go, at the byte level: the walk's
metadata events followed by the 32-byte zero EOT sentinel
(`out.Write(make([]byte, 32))`). -/
def transmitDirectoryBytes (crcUsage : Nat) (ig : Bool) (base : String)
    (t : FSNode) : List Nat :=
  ((osWalkNode ig base t).map (marshalMetadataEvent crcUsage)).flatten ++
    List.replicate 32 0

/-- A small concrete tree used by witnesses: a top directory with one
regular file and one subdirectory containing a symlink. -/
def wFile : FSNode := FSNode.file "a" ⟨1, 2, 3, 4⟩ ⟨420, by decide⟩ [104, 105]

/-- The symlink of the witness tree. -/
def wLink : FSNode := FSNode.symlink "l" ⟨5, 6, 7, 8⟩ [47, 116]

/-- The subdirectory of the witness tree. -/
def wSub : FSNode := FSNode.dir "sub" ⟨9, 10, 11, 12⟩ ⟨493, by decide⟩ [wLink]

/-- The witness tree root. -/
def wTree : FSNode := FSNode.dir "top" ⟨13, 14, 15, 16⟩ ⟨493, by decide⟩ [wFile, wSub]

/-! ## Result header and phase acknowledgement (unpack.go) -/

/-- `resultHeader` from types.go: `error_code`, `pad` and `crc32`. -/
structure resultHeader where
  ErrorCode : Nat
  Pad : Nat
  Crc32 : Nat
deriving DecidableEq, Repr

/-- `resultHeader.marshallBinary`: 16 bytes, little-endian. -/
def resultHeader.marshallBinary (h : resultHeader) : List Nat :=
  le32 h.ErrorCode ++ le32 h.Pad ++ le64 h.Crc32

/-- `resultHeaderExt.marshallBinary`: the 4-byte length followed by the
NUL-terminated last name (`WritePath`). -/
def resultHeaderExtBytes (lastNameLen : Nat) (lastName : String) : List Nat :=
  le32 lastNameLen ++ WritePathBytes lastName

/-- `Receiver.sendStatusAndCrc` from unpack.go: writes a result header with
the given code, `Pad = 0` and `Crc32 = 0xdeadc0de`, and then the result
extension (`LastNameLen = len + 1`) — but only when the last filename is
non-empty (`if len(lastFilename) == 0 return nil`). -/
def sendStatusAndCrc (code : Nat) (lastFilename : String) : List Nat :=
  resultHeader.marshallBinary { ErrorCode := code, Pad := 0, Crc32 := 0xdeadc0de } ++
    (if lastFilename.length == 0 then []
    else resultHeaderExtBytes (lastFilename.length + 1) lastFilename)

/-- The phase-final acknowledgement emitted by `ReceiveMetadata` and
`ReceiveFullData`: `sendStatusAndCrc 0 lastName`, where `lastName` is the
loop variable that holds the path of the last successfully processed item
(initially the empty string). -/
def phaseAckBytes (processedPaths : List String) : List Nat :=
  sendStatusAndCrc 0 (processedPaths.foldl (fun _ p => p) "")

/-! ## Content-phase regular-file transfer (unpack.go, part_007) -/

/-- The receiver-side filesystem state relevant to one regular-file
transfer: the content at the target path and at the tempfile, when
present. -/
structure FileFS where
  target : Option (List Nat)
  temp : Option (List Nat)
deriving DecidableEq, Repr

/-- The primitive filesystem effects of `receiveRegularFileFullData`. -/
inductive FsOp where
  | createTemp
  | writeTemp (bytes : List Nat)
  | removeTarget
  | linkTempToTarget
  | removeTemp
deriving DecidableEq, Repr

/-- Effect of one primitive operation on the file state. -/
def applyOp (fs : FileFS) : FsOp → FileFS
  | .createTemp => { fs with temp := some [] }
  | .writeTemp bs => { fs with temp := some bs }
  | .removeTarget => { fs with target := none }
  | .linkTempToTarget => { fs with target := fs.temp }
  | .removeTemp => { fs with temp := none }

/-- `Receiver.receiveRegularFileFullData` from unpack.go for a receiver
built by `NewReceiver` (`useTempFile = true`, `byteLimit = 0`), as its
outcome plus the ordered trace of filesystem effects.  After the
`countBytes` size check it creates a tempfile and streams into it;
`CopyFile` (part_007) fails exactly when fewer than `file_len` bytes are
available, having already written the available prefix; on failure the
deferred `os.Remove` deletes the tempfile and nothing else happens; on
success `RemoveIfExist(target)`, `os.Link(temp, target)` and the deferred
removal of the tempfile follow in that order (`fixTimesAndPerms` then only
touches times/mode of the target, not its content). -/
def receiveRegularFileFullData (fileLen : Nat) (inp : List Nat) :
    Except String Unit × List FsOp :=
  if fileLen > MaxTransfer then (.error "file too large", [])
  else if fileLen ≤ inp.length then
    (.ok (), [.createTemp, .writeTemp (inp.take fileLen), .removeTarget,
      .linkTempToTarget, .removeTemp])
  else
    (.error "copy read err",
      [.createTemp, .writeTemp (inp.take fileLen), .removeTemp])

/-! ## Deletion snapshot and blacklist (receiver)

The released receiver's `Sync` path — initial working-directory snapshot,
deletion set, safety blacklist and post-processing deletion — is not under
`src/` (only its tests and callers are); the definitions below are modelled
from the spec (§4.4 metadata phase and post-processing). -/

/-- Modelled from the spec: one deletion-set event during the transfer.
The missing receiver removes the path of every inbound header from the
deletion set (`mention`) and, on the first visit of a directory that
already exists locally, snapshots that directory's children into the set
(`snapshot`). -/
inductive DelEvent where
  | mention (p : String)
  | snapshot (ps : List String)
deriving DecidableEq, Repr

/-- Modelled from the spec: one step of the deletion-set update. -/
def delStep (s : List String) : DelEvent → List String
  | .mention p => s.filter (fun q => q != p)
  | .snapshot ps => s ++ ps

/-- Modelled from the spec: the deletion set remaining after the transfer —
the paths removed during post-processing. -/
def deletionsAfter (s0 : List String) (events : List DelEvent) : List String :=
  events.foldl delStep s0

/-- Does the event re-add the path `p` (a snapshot containing `p`)? -/
def DelEvent.readds (p : String) : DelEvent → Bool
  | .mention _ => false
  | .snapshot ps => ps.contains p

/-- Modelled from the spec: the receiver's safety blacklist. -/
def blacklist : List String :=
  ["bin", "boot", "dev", "etc", "home", "lost+found", "media", "mnt", "opt",
    "proc", "root", "sbin", "srv", "sys", "usr", "var"]

/-- Modelled from the spec: the missing receiver's run, reduced to its
deletion behaviour.  `snapshot0` is the initial one-level working-directory
snapshot; if it contains a blacklisted name the receiver aborts before any
filesystem modification or deletion (no deletion list is produced),
otherwise the transfer processes its events and post-processing deletes
what remains of the deletion set. -/
def receiverRun (snapshot0 : List String) (events : List DelEvent) :
    Except String (List String) :=
  if snapshot0.any (fun e => blacklist.contains e) then
    .error "receiver is not confined"
  else .ok (deletionsAfter snapshot0 events)

/-! ## Second-run request computation (C4) -/

/-- The stage-1 request-list computation of unpack.go: `ReceiveMetadata`
drives `processItemMetadata` over the inbound headers until EOT.  Directory
headers go to `receiveDirMetadata` and never touch the index; for a
regular-file or symlink header, `receiveFileMetadata` increments the index
once (deferred `r.index++`), first checks the inbound length via
`countBytes` (a `NewReceiver`-built receiver has `byteLimit = 0`, so only
the `MaxTransfer` bound applies), requests the index when no local entry
exists, and otherwise requests it exactly when the header built from the
local stat is not `Eq` (part_006) to the inbound header; any other header
kind aborts (`unknown file Mode`).  `localStat p` models `os.Lstat` at
path `p`. -/
def metaRequests (localStat : String → Option fileHeaderData) :
    List (String × fileHeaderData) → Nat → Except String (List Nat)
  | [], _ => .ok []
  | (p, hdr) :: rest, idx =>
      if hdr.isDir then metaRequests localStat rest idx
      else if hdr.isSymlink || hdr.isRegular then
        if hdr.FileLen > MaxTransfer then .error "file too large"
        else
          match metaRequests localStat rest (idx + 1) with
          | .error e => .error e
          | .ok l =>
              match localStat p with
              | none => .ok (idx :: l)
              | some localFile =>
                  if localFile.Eq hdr then .ok l
                  else .ok (idx :: l)
      else .error "unknown file Mode"

/-- The metadata stream the sender emits during a walk: each emitted event's
path paired with its `sendItemMetadata` header. -/
def senderMetaStream (crcUsage : Nat) (ig : Bool) (base : String)
    (t : FSNode) : List (String × fileHeaderData) :=
  (osWalkNode ig base t).map fun e =>
    (e.1, sendItemMetadataHeader crcUsage e.1 e.2)

/-- The receiver's local stat at a path mirrors a sender entry exactly, as
a completed first run with CRC usage off leaves it (spec §8, clean-receiver
fidelity): same name length, same mode word, same size, and — except for
symlinks, whose times cannot be set — the same atime and mtime seconds and
nanoseconds (`fixTimesAndPerms` applies the content-phase header's times,
which carry the true stat values when no CRC is substituted). -/
def MirrorsEntryExact (lh : fileHeaderData) (p : String) (n : FSNode) : Prop :=
  lh.NameLen = p.length + 1 ∧ lh.Mode = statMode n ∧
    lh.FileLen = nodeSize n ∧
    (n.isLinkNode = true ∨
      (lh.Atime = n.st.Atime ∧ lh.AtimeNsec = n.st.AtimeNsec ∧
        lh.Mtime = n.st.Mtime ∧ lh.MtimeNsec = n.st.MtimeNsec))

/-- A concrete receiver-side stat function mirroring the witness tree. -/
def c4LocalStat : String → Option fileHeaderData := fun p =>
  if p == "top" then some (newFileHeaderFromStat "top" wTree)
  else if p == "top/a" then some (newFileHeaderFromStat "top/a" wFile)
  else if p == "top/sub" then some (newFileHeaderFromStat "top/sub" wSub)
  else if p == "top/sub/l" then some (newFileHeaderFromStat "top/sub/l" wLink)
  else none

end QvmSync

namespace QvmSync

/-! ## Claim C9 -/

/-- C9: decoding a wire path succeeds for every declared length up to and
including 16383 bytes whose final byte is NUL, returning the bytes before the
NUL; a declared length of 16384 or more is a protocol error, and so is a path
whose final byte is not NUL. -/
theorem C9_readPath_spec :
    (∀ (inp : List Nat) (length : Nat), 1 ≤ length → length ≤ 16383 →
      length ≤ inp.length → inp.getD (length - 1) 1 = 0 →
      ReadPath inp length = .ok (inp.take (length - 1)))
    ∧ (∀ inp : List Nat, ReadPath inp 0 = .ok [])
    ∧ (∀ (inp : List Nat) (length : Nat), 16384 ≤ length →
      (ReadPath inp length).isOk = false)
    ∧ (∀ (inp : List Nat) (length : Nat), 1 ≤ length → length ≤ 16383 →
      length ≤ inp.length → inp.getD (length - 1) 1 ≠ 0 →
      (ReadPath inp length).isOk = false) := by
  refine ⟨?_, ?_, ?_, ?_⟩
  · intro inp length h1 h2 h3 h4
    have hlen0 : ¬(length == 0) = true := by
      simp only [beq_iff_eq]; omega
    have hmax : ¬ length > MaxPathLength - 1 := by
      simp only [MaxPathLength]; omega
    have hread : ¬ inp.length < length := by omega
    have hgd : (inp.take length).getD (length - 1) 1 = inp.getD (length - 1) 1 := by
      simp only [List.getD_eq_getElem?_getD]
      rw [List.getElem?_take, if_pos (by omega)]
    have hcond : ¬((inp.getD (length - 1) 1 != 0) = true) := by rw [h4]; simp
    simp only [ReadPath, hmax, if_false, hlen0, hread, hgd]
    rw [if_neg hcond, List.take_take, Nat.min_eq_left (by omega)]
    simp
  · intro inp
    simp [ReadPath, MaxPathLength]
  · intro inp length h
    have hmax : length > MaxPathLength - 1 := by
      simp only [MaxPathLength]; omega
    unfold ReadPath
    rw [if_pos hmax]
    rfl
  · intro inp length h1 h2 h3 h4
    have hlen0 : ¬(length == 0) = true := by
      simp only [beq_iff_eq]; omega
    have hmax : ¬ length > MaxPathLength - 1 := by
      simp only [MaxPathLength]; omega
    have hread : ¬ inp.length < length := by omega
    have hgd : (inp.take length).getD (length - 1) 1 = inp.getD (length - 1) 1 := by
      simp only [List.getD_eq_getElem?_getD]
      rw [List.getElem?_take, if_pos (by omega)]
    have hcond : ((inp.getD (length - 1) 1 != 0) = true) := by simpa using h4
    simp only [ReadPath, hmax, if_false, hlen0, hread, hgd]
    rw [if_pos hcond]
    rfl

/-- Witness for C9 at concrete inputs: a 3-byte NUL-terminated path decodes
to its first two bytes, a declared length of 16384 is rejected, and a path
not ending in NUL is rejected. -/
theorem C9_readPath_spec_witness :
    ReadPath [104, 105, 0] 3 = .ok [104, 105]
    ∧ (ReadPath [0] 16384).isOk = false
    ∧ (ReadPath [104, 105, 7] 3).isOk = false :=
  ⟨by
      have h := C9_readPath_spec.1 [104, 105, 0] 3 (by decide) (by decide)
        (by decide) (by decide)
      simpa using h,
    C9_readPath_spec.2.2.1 [0] 16384 (by decide),
    C9_readPath_spec.2.2.2 [104, 105, 7] 3 (by decide) (by decide) (by decide)
      (by decide)⟩

/-! ## Claim C3 -/

/-- The source `Eq` agrees with the field-level difference predicate
`eqDiffers` (which, unlike the claim's comparison, includes the atime
fields). -/
theorem fileHeaderData.Eq_eq_not_eqDiffers (lh hdr : fileHeaderData) :
    lh.Eq hdr = !(eqDiffers lh hdr) := by
  simp only [fileHeaderData.Eq, fileHeaderData.EqErrs, eqDiffers]
  split_ifs <;> simp_all

/-- C3 counterexample: a local and an inbound regular-file header that agree
on `name_len`, `mode`, `file_len`, `mtime` and `mtime_nsec` and differ only
in the atime fields are nevertheless scheduled by `receiveFileMetadata` —
refuting the claim that the atime fields never take part in the
comparison. -/
theorem C3_counterexample :
    receiveFileMetadata (some c3LocalHeader) c3InboundHeader = .request
    ∧ specC3Differs c3LocalHeader c3InboundHeader = false := by
  constructor <;> decide

/-- C3 amended: for a metadata-phase file/symlink header that passes the size
check and has a local entry, the receiver schedules the index if and only if
the local and inbound headers differ in `name_len`, `mode`, `file_len`, or —
when the two headers are not both symlinks — `atime`, `atime_nsec`, `mtime`
or `mtime_nsec` (the atime fields do participate). -/
theorem C3_amended (lh hdr : fileHeaderData) (hsize : hdr.FileLen ≤ MaxTransfer) :
    receiveFileMetadata (some lh) hdr = .request ↔ eqDiffers lh hdr = true := by
  have hfail : ¬ hdr.FileLen > MaxTransfer := by omega
  rw [receiveFileMetadata, if_neg hfail]
  rw [fileHeaderData.Eq_eq_not_eqDiffers]
  cases h : eqDiffers lh hdr <;> simp

/-- Witness for C3 amended at a concrete input: a header differing from the
local one only in `mtime` is scheduled. -/
theorem C3_amended_witness :
    receiveFileMetadata (some c3LocalHeader)
      { c3LocalHeader with Mtime := 201 } = .request := by
  have h := C3_amended c3LocalHeader { c3LocalHeader with Mtime := 201 }
    (by decide)
  exact h.mpr (by decide)

/-! ## Mode-bit arithmetic

Permission bits live below bit 12; all Go type bits live at bit 19 or
above.  The following lemmas let the type predicates compute on `statMode`
for arbitrary permission words. -/

/-- A bit below 12 of a multiple of 4096 is clear. -/
theorem testBit_low_of_mod (K : Nat) (hK : K % 4096 = 0) (i : Nat)
    (hi : i < 12) : K.testBit i = false := by
  obtain ⟨c, rfl⟩ : 2 ^ (i + 1) ∣ K := by
    refine dvd_trans ?_ (Nat.dvd_of_mod_eq_zero hK)
    have h4096 : (4096 : Nat) = 2 ^ 12 := by norm_num
    rw [h4096]
    exact Nat.pow_dvd_pow 2 (by omega)
  rw [Nat.testBit_to_div_mod]
  have hdiv : 2 ^ (i + 1) * c / 2 ^ i = 2 * c := by
    rw [Nat.pow_succ, Nat.mul_assoc]
    exact Nat.mul_div_cancel_left _ (Nat.two_pow_pos i)
  rw [hdiv]
  simp [Nat.mul_mod_right]

/-- A value below 4096 has no bit at or above 12. -/
theorem testBit_high_of_lt (p : Nat) (hp : p < 4096) (i : Nat)
    (hi : 12 ≤ i) : p.testBit i = false := by
  refine Nat.testBit_lt_two_pow (lt_of_lt_of_le hp ?_)
  have h4096 : (4096 : Nat) = 2 ^ 12 := by norm_num
  rw [h4096]
  exact Nat.pow_le_pow_right (by omega) hi

/-- A permission word below 4096 is disjoint from any multiple of 4096. -/
theorem low_land (p K : Nat) (hp : p < 4096) (hK : K % 4096 = 0) :
    p &&& K = 0 := by
  apply Nat.eq_of_testBit_eq
  intro i
  rw [Nat.testBit_and, Nat.zero_testBit]
  by_cases hi : i < 12
  · rw [testBit_low_of_mod K hK i hi, Bool.and_false]
  · rw [testBit_high_of_lt p hp i (by omega), Bool.false_and]

/-- Adding a permission word below 4096 to a type word does not change the
intersection with another type word. -/
theorem or_low_land (K1 p K2 : Nat) (hp : p < 4096) (hK2 : K2 % 4096 = 0) :
    (K1 ||| p) &&& K2 = K1 &&& K2 := by
  apply Nat.eq_of_testBit_eq
  intro i
  rw [Nat.testBit_and, Nat.testBit_and, Nat.testBit_or]
  by_cases hi : i < 12
  · rw [testBit_low_of_mod K2 hK2 i hi, Bool.and_false, Bool.and_false]
  · rw [testBit_high_of_lt p hp i (by omega), Bool.or_false]

/-- `isDir` of a stat mode agrees with the node being a directory. -/
theorem modeIsDir_statMode (t : FSNode) : modeIsDir (statMode t) = t.isDirNode := by
  cases t with
  | file n st perm c =>
    simp only [statMode, modeIsDir, FSNode.isDirNode]
    rw [low_land perm.val ModeDir perm.isLt (by decide)]
    simp
  | symlink n st tgt =>
    simp only [statMode, modeIsDir, FSNode.isDirNode]
    decide
  | other n st perm k =>
    simp only [statMode, modeIsDir, FSNode.isDirNode]
    rw [or_low_land k.modeBits perm.val ModeDir perm.isLt (by decide)]
    cases k <;> decide
  | dir n st perm cs =>
    simp only [statMode, modeIsDir, FSNode.isDirNode]
    rw [or_low_land ModeDir perm.val ModeDir perm.isLt (by decide)]
    decide

/-- `isSymlink` of a stat mode agrees with the node being a symlink. -/
theorem modeIsSymlink_statMode (t : FSNode) :
    modeIsSymlink (statMode t) = t.isLinkNode := by
  cases t with
  | file n st perm c =>
    simp only [statMode, modeIsSymlink, FSNode.isLinkNode]
    rw [low_land perm.val ModeSymlink perm.isLt (by decide)]
    simp
  | symlink n st tgt =>
    simp only [statMode, modeIsSymlink, FSNode.isLinkNode]
    decide
  | other n st perm k =>
    simp only [statMode, modeIsSymlink, FSNode.isLinkNode]
    rw [or_low_land k.modeBits perm.val ModeSymlink perm.isLt (by decide)]
    cases k <;> decide
  | dir n st perm cs =>
    simp only [statMode, modeIsSymlink, FSNode.isLinkNode]
    rw [or_low_land ModeDir perm.val ModeSymlink perm.isLt (by decide)]
    decide

/-- `isRegular` of a stat mode agrees with the node being a regular file. -/
theorem modeIsRegular_statMode (t : FSNode) :
    modeIsRegular (statMode t) = t.isFileNode := by
  cases t with
  | file n st perm c =>
    simp only [statMode, modeIsRegular, FSNode.isFileNode]
    rw [low_land perm.val ModeType perm.isLt (by decide)]
    simp
  | symlink n st tgt =>
    simp only [statMode, modeIsRegular, FSNode.isFileNode]
    decide
  | other n st perm k =>
    simp only [statMode, modeIsRegular, FSNode.isFileNode]
    rw [or_low_land k.modeBits perm.val ModeType perm.isLt (by decide)]
    cases k <;> decide
  | dir n st perm cs =>
    simp only [statMode, modeIsRegular, FSNode.isFileNode]
    rw [or_low_land ModeDir perm.val ModeType perm.isLt (by decide)]
    decide

/-- The `regularOrSymlink` send-list test selects exactly regular files and
symlinks. -/
theorem mask_statMode (t : FSNode) :
    (statMode t &&& regularOrSymlink == 0) = (t.isFileNode || t.isLinkNode) := by
  cases t with
  | file n st perm c =>
    simp only [statMode, FSNode.isFileNode, FSNode.isLinkNode]
    rw [low_land perm.val regularOrSymlink perm.isLt (by decide)]
    simp
  | symlink n st tgt =>
    simp only [statMode, FSNode.isFileNode, FSNode.isLinkNode]
    decide
  | other n st perm k =>
    simp only [statMode, FSNode.isFileNode, FSNode.isLinkNode]
    rw [or_low_land k.modeBits perm.val regularOrSymlink perm.isLt (by decide)]
    cases k <;> decide
  | dir n st perm cs =>
    simp only [statMode, FSNode.isFileNode, FSNode.isLinkNode]
    rw [or_low_land ModeDir perm.val regularOrSymlink perm.isLt (by decide)]
    decide

/-! ## Claim C5 -/

/-- The CRC of the empty byte sequence is 0. -/
theorem crc32_nil : crc32 [] = 0 := by
  simp [crc32, Nat.xor_self]

/-- On regular files `CrcFile` always equals the content CRC (the zero-size
shortcut agrees with `crc32 []`). -/
theorem CrcFile_file (n : String) (st : StatTimes) (perm : Fin 4096)
    (c : List Nat) : CrcFile (FSNode.file n st perm c) = crc32 c := by
  simp only [CrcFile]
  by_cases hc : c.length = 0
  · rw [if_pos (by simpa using hc)]
    rw [List.length_eq_zero.mp hc, crc32_nil]
  · rw [if_neg (by simpa using hc)]

/-- Characterization of `sendItemMetadataHeader` in terms of the node
kind. -/
theorem sendItemMetadataHeader_eq (crcUsage : Nat) (path : String)
    (t : FSNode) :
    sendItemMetadataHeader crcUsage path t =
      if t.isDirNode then newFileHeaderFromStat path t
      else if crcUsage == FileCrcAtimeNsec ||
          crcUsage == FileCrcAtimeNsecMetadata then
        { newFileHeaderFromStat path t with AtimeNsec := CrcFile t }
      else newFileHeaderFromStat path t := by
  have hdir : (newFileHeaderFromStat path t).isDir = t.isDirNode := by
    simp only [fileHeaderData.isDir, newFileHeaderFromStat]
    exact modeIsDir_statMode t
  simp only [sendItemMetadataHeader, hdir]

/-- C5 counterexample: with the default CRC usage (metadata), the metadata
header of a directory whose stat atime_nsec is 7 carries `atime_nsec = 7`,
not 0 as the claim states for directories. -/
theorem C5_counterexample :
    (sendItemMetadataHeader FileCrcAtimeNsecMetadata "adir"
      (FSNode.dir "adir" ⟨1, 7, 2, 3⟩ ⟨493, by decide⟩ [])).AtimeNsec = 7
    ∧ (7 : Nat) ≠ 0 := by
  constructor
  · rfl
  · decide

/-- C5 amended: in every metadata-phase header emitted by the walker when
the CRC usage includes metadata, `atime_nsec` equals the CRC-32 (IEEE) of
the content for regular files and 0 for symlinks, while directory headers
keep the stat's real `atime_nsec`. -/
theorem C5_amended (crcUsage : Nat) (path : String) (t : FSNode)
    (h : crcUsage = FileCrcAtimeNsec ∨ crcUsage = FileCrcAtimeNsecMetadata) :
    (t.isFileNode = true →
      (sendItemMetadataHeader crcUsage path t).AtimeNsec = crc32 t.content)
    ∧ (t.isLinkNode = true →
      (sendItemMetadataHeader crcUsage path t).AtimeNsec = 0)
    ∧ (t.isDirNode = true →
      (sendItemMetadataHeader crcUsage path t).AtimeNsec = t.st.AtimeNsec) := by
  have hcond : (crcUsage == FileCrcAtimeNsec ||
      crcUsage == FileCrcAtimeNsecMetadata) = true := by
    rcases h with h | h <;> simp [h]
  rw [sendItemMetadataHeader_eq, hcond]
  refine ⟨?_, ?_, ?_⟩
  · intro hf
    cases t with
    | file n st perm c =>
      simp only [FSNode.isDirNode, Bool.false_eq_true, if_false, if_true,
        CrcFile_file, FSNode.content]
    | symlink n st tgt => simp [FSNode.isFileNode] at hf
    | other n st perm k => simp [FSNode.isFileNode] at hf
    | dir n st perm cs => simp [FSNode.isFileNode] at hf
  · intro hl
    cases t with
    | symlink n st tgt =>
      simp only [FSNode.isDirNode, Bool.false_eq_true, if_false, if_true]
      rfl
    | file n st perm c => simp [FSNode.isLinkNode] at hl
    | other n st perm k => simp [FSNode.isLinkNode] at hl
    | dir n st perm cs => simp [FSNode.isLinkNode] at hl
  · intro hd
    cases t with
    | dir n st perm cs =>
      simp only [FSNode.isDirNode, if_true]
      rfl
    | file n st perm c => simp [FSNode.isDirNode] at hd
    | symlink n st tgt => simp [FSNode.isDirNode] at hd
    | other n st perm k => simp [FSNode.isDirNode] at hd

/-- Witness for C5 amended at concrete inputs: a two-byte regular file gets
its content CRC into `atime_nsec`, and a symlink gets 0. -/
theorem C5_amended_witness :
    (sendItemMetadataHeader FileCrcAtimeNsecMetadata "f"
        (FSNode.file "f" ⟨1, 5, 2, 3⟩ ⟨420, by decide⟩ [104, 105])).AtimeNsec
      = crc32 [104, 105]
    ∧ (sendItemMetadataHeader FileCrcAtimeNsecMetadata "l"
        (FSNode.symlink "l" ⟨1, 5, 2, 3⟩ [47, 97])).AtimeNsec = 0 :=
  ⟨(C5_amended FileCrcAtimeNsecMetadata "f"
      (FSNode.file "f" ⟨1, 5, 2, 3⟩ ⟨420, by decide⟩ [104, 105])
      (Or.inr rfl)).1 rfl,
    (C5_amended FileCrcAtimeNsecMetadata "l"
      (FSNode.symlink "l" ⟨1, 5, 2, 3⟩ [47, 97])
      (Or.inr rfl)).2.1 rfl⟩

/-! ## Walker structure lemmas (pack.go) -/

@[simp] theorem name_file (n : String) (st : StatTimes) (perm : Fin 4096)
    (c : List Nat) : (FSNode.file n st perm c).name = n := rfl

@[simp] theorem name_symlink (n : String) (st : StatTimes) (tgt : List Nat) :
    (FSNode.symlink n st tgt).name = n := rfl

@[simp] theorem name_other (n : String) (st : StatTimes) (perm : Fin 4096)
    (k : OtherKind) : (FSNode.other n st perm k).name = n := rfl

@[simp] theorem name_dir (n : String) (st : StatTimes) (perm : Fin 4096)
    (cs : List FSNode) : (FSNode.dir n st perm cs).name = n := rfl

@[simp] theorem isDirNode_file (n : String) (st : StatTimes) (perm : Fin 4096)
    (c : List Nat) : (FSNode.file n st perm c).isDirNode = false := rfl

@[simp] theorem isDirNode_symlink (n : String) (st : StatTimes)
    (tgt : List Nat) : (FSNode.symlink n st tgt).isDirNode = false := rfl

@[simp] theorem isDirNode_other (n : String) (st : StatTimes) (perm : Fin 4096)
    (k : OtherKind) : (FSNode.other n st perm k).isDirNode = false := rfl

@[simp] theorem isDirNode_dir (n : String) (st : StatTimes) (perm : Fin 4096)
    (cs : List FSNode) : (FSNode.dir n st perm cs).isDirNode = true := rfl

@[simp] theorem isFileNode_file (n : String) (st : StatTimes) (perm : Fin 4096)
    (c : List Nat) : (FSNode.file n st perm c).isFileNode = true := rfl

@[simp] theorem isFileNode_symlink (n : String) (st : StatTimes)
    (tgt : List Nat) : (FSNode.symlink n st tgt).isFileNode = false := rfl

@[simp] theorem isFileNode_other (n : String) (st : StatTimes)
    (perm : Fin 4096) (k : OtherKind) :
    (FSNode.other n st perm k).isFileNode = false := rfl

@[simp] theorem isFileNode_dir (n : String) (st : StatTimes) (perm : Fin 4096)
    (cs : List FSNode) : (FSNode.dir n st perm cs).isFileNode = false := rfl

@[simp] theorem isLinkNode_file (n : String) (st : StatTimes) (perm : Fin 4096)
    (c : List Nat) : (FSNode.file n st perm c).isLinkNode = false := rfl

@[simp] theorem isLinkNode_symlink (n : String) (st : StatTimes)
    (tgt : List Nat) : (FSNode.symlink n st tgt).isLinkNode = true := rfl

@[simp] theorem isLinkNode_other (n : String) (st : StatTimes)
    (perm : Fin 4096) (k : OtherKind) :
    (FSNode.other n st perm k).isLinkNode = false := rfl

@[simp] theorem isLinkNode_dir (n : String) (st : StatTimes) (perm : Fin 4096)
    (cs : List FSNode) : (FSNode.dir n st perm cs).isLinkNode = false := rfl

@[simp] theorem isOtherNode_file (n : String) (st : StatTimes)
    (perm : Fin 4096) (c : List Nat) :
    (FSNode.file n st perm c).isOtherNode = false := rfl

@[simp] theorem isOtherNode_symlink (n : String) (st : StatTimes)
    (tgt : List Nat) : (FSNode.symlink n st tgt).isOtherNode = false := rfl

@[simp] theorem isOtherNode_other (n : String) (st : StatTimes)
    (perm : Fin 4096) (k : OtherKind) :
    (FSNode.other n st perm k).isOtherNode = true := rfl

@[simp] theorem isOtherNode_dir (n : String) (st : StatTimes) (perm : Fin 4096)
    (cs : List FSNode) : (FSNode.dir n st perm cs).isOtherNode = false := rfl

mutual

/-- Header-count bookkeeping for a walk (ignore-symlinks off): for any path
`p`, the number of emitted events at `p` is twice the number of directory
entries at `p` plus the number of non-directory entries at `p`. -/
theorem walkNode_count (p base : String) (t : FSNode) :
    ((osWalkNode false base t).filter (fun e => e.1 == p)).length =
      2 * ((entriesNode base t).filter
            (fun e => e.1 == p && e.2.isDirNode)).length +
        ((entriesNode base t).filter
            (fun e => e.1 == p && !e.2.isDirNode)).length := by
  cases t with
  | file n st perm c =>
      simp only [osWalkNode, entriesNode]
      by_cases hb : (base == p) <;> simp [hb]
  | symlink n st tgt =>
      simp only [osWalkNode, entriesNode, Bool.false_eq_true, if_false]
      by_cases hb : (base == p) <;> simp [hb]
  | other n st perm k =>
      simp only [osWalkNode, entriesNode]
      by_cases hb : (base == p) <;> simp [hb]
  | dir n st perm cs =>
      have ih := walkForest_count p base cs
      simp only [osWalkNode, entriesNode, List.filter_cons, List.filter_append,
        List.length_append, isDirNode_dir, Bool.and_true, Bool.not_true,
        Bool.and_false]
      by_cases hb : (base == p) <;> simp [hb] <;> omega

/-- Forest version of `walkNode_count`. -/
theorem walkForest_count (p dirPath : String) (ts : List FSNode) :
    ((osWalkForest false dirPath ts).filter (fun e => e.1 == p)).length =
      2 * ((entriesForest dirPath ts).filter
            (fun e => e.1 == p && e.2.isDirNode)).length +
        ((entriesForest dirPath ts).filter
            (fun e => e.1 == p && !e.2.isDirNode)).length := by
  cases ts with
  | nil => simp [osWalkForest, entriesForest]
  | cons c rest =>
      have ih1 := walkNode_count p (joinPath dirPath c.name) c
      have ih2 := walkForest_count p dirPath rest
      simp only [osWalkForest, entriesForest, List.filter_append,
        List.length_append]
      omega

end

mutual

/-- The regular-file/symlink events of a walk (ignore-symlinks off) are
exactly the regular-file/symlink entries of the tree, in preorder. -/
theorem walkNode_regLink (base : String) (t : FSNode) :
    (osWalkNode false base t).filter
        (fun e => e.2.isFileNode || e.2.isLinkNode) =
      (entriesNode base t).filter
        (fun e => e.2.isFileNode || e.2.isLinkNode) := by
  cases t with
  | file n st perm c => simp [osWalkNode, entriesNode]
  | symlink n st tgt => simp [osWalkNode, entriesNode]
  | other n st perm k => simp [osWalkNode, entriesNode]
  | dir n st perm cs =>
      have ih := walkForest_regLink base cs
      simp [osWalkNode, entriesNode, List.filter_cons, List.filter_append, ih]

/-- Forest version of `walkNode_regLink`. -/
theorem walkForest_regLink (dirPath : String) (ts : List FSNode) :
    (osWalkForest false dirPath ts).filter
        (fun e => e.2.isFileNode || e.2.isLinkNode) =
      (entriesForest dirPath ts).filter
        (fun e => e.2.isFileNode || e.2.isLinkNode) := by
  cases ts with
  | nil => simp [osWalkForest, entriesForest]
  | cons c rest =>
      have ih1 := walkNode_regLink (joinPath dirPath c.name) c
      have ih2 := walkForest_regLink dirPath rest
      simp [osWalkForest, entriesForest, List.filter_append, ih1, ih2]

end

/-- In a path-deduplicated entry list, filtering by a member's path yields
exactly that member. -/
theorem filter_path_of_nodup {l : List (String × FSNode)} {q : String}
    {n : FSNode} (hnd : (l.map Prod.fst).Nodup) (hm : (q, n) ∈ l) :
    l.filter (fun e => e.1 == q) = [(q, n)] := by
  induction l with
  | nil => cases hm
  | cons a rest ih =>
      rw [List.map_cons, List.nodup_cons] at hnd
      rcases List.mem_cons.mp hm with heq | hm2
      · subst heq
        rw [List.filter_cons, if_pos (by simp)]
        have hrest : rest.filter (fun e => e.1 == q) = [] := by
          rw [List.filter_eq_nil_iff]
          intro e he
          simp only [beq_iff_eq]
          intro hq
          apply hnd.1
          have hmem : e.1 ∈ rest.map Prod.fst := List.mem_map_of_mem Prod.fst he
          rwa [hq] at hmem
        rw [hrest]
      · have ha : ¬(a.1 == q) = true := by
          simp only [beq_iff_eq]
          intro h
          apply hnd.1
          rw [h]
          exact List.mem_map_of_mem Prod.fst hm2
        rw [List.filter_cons, if_neg ha]
        exact ih hnd.2 hm2

/-! ## Claim C7 -/

/-- C7: for every tree with a directory root and duplicate-free paths
(ignore-symlinks off), the metadata stream contains exactly two headers for
each directory path and exactly one header for each non-directory path, the
last emitted event before the sentinel is the top-level directory's (second)
header, and the wire stream is the emitted headers followed by the 32-byte
all-zero EOT sentinel. -/
theorem C7_walker_emission (crcUsage : Nat) (base : String) (t : FSNode)
    (hdir : t.isDirNode = true)
    (hnodup : ((entriesNode base t).map Prod.fst).Nodup) :
    (∀ e ∈ entriesNode base t,
      ((osWalkNode false base t).filter (fun x => x.1 == e.1)).length =
        if e.2.isDirNode then 2 else 1)
    ∧ (osWalkNode false base t).getLast? = some (base, t)
    ∧ transmitDirectoryBytes crcUsage false base t =
        ((osWalkNode false base t).map (marshalMetadataEvent crcUsage)).flatten
          ++ List.replicate 32 0 := by
  refine ⟨?_, ?_, rfl⟩
  · rintro ⟨q, n⟩ he
    have hcount := walkNode_count q base t
    have hfilter := filter_path_of_nodup hnodup he
    have hsplit : ∀ g : String × FSNode → Bool,
        (entriesNode base t).filter (fun e => e.1 == q && g e) =
          List.filter g [(q, n)] := by
      intro g
      rw [List.filter_congr (fun x _ => Bool.and_comm (x.1 == q) (g x)),
        ← List.filter_filter, hfilter]
    rw [hsplit (fun e => e.2.isDirNode), hsplit (fun e => !e.2.isDirNode)]
      at hcount
    by_cases hd : n.isDirNode = true
    · rw [hcount]
      simp [List.filter_cons, hd]
    · rw [hcount]
      simp only [Bool.not_eq_true] at hd
      simp [List.filter_cons, hd]
  · cases t with
    | dir n st perm cs =>
        simp only [osWalkNode]
        rw [show (base, FSNode.dir n st perm cs) ::
              (osWalkForest false base cs ++
                [(base, FSNode.dir n st perm cs)]) =
            ((base, FSNode.dir n st perm cs) :: osWalkForest false base cs) ++
              [(base, FSNode.dir n st perm cs)] from by simp]
        exact List.getLast?_concat _
    | file n st perm c => simp at hdir
    | symlink n st tgt => simp at hdir
    | other n st perm k => simp at hdir

/-- The entry list of the concrete witness tree, evaluated. -/
theorem entriesNode_wTree :
    entriesNode "top" wTree =
      [("top", wTree), ("top/a", wFile), ("top/sub", wSub),
        ("top/sub/l", wLink)] := by
  have h1 : joinPath "top" "a" = "top/a" := by decide
  have h2 : joinPath "top" "sub" = "top/sub" := by decide
  have h3 : joinPath "top/sub" "l" = "top/sub/l" := by decide
  show entriesNode "top" (FSNode.dir "top" ⟨13, 14, 15, 16⟩ ⟨493, by decide⟩
    [wFile, wSub]) = _
  rw [entriesNode, entriesForest]
  rw [show wFile.name = "a" from rfl]
  rw [h1, entriesForest]
  rw [show wSub.name = "sub" from rfl]
  rw [h2, entriesForest]
  rw [show entriesNode "top/a" wFile = [("top/a", wFile)] from rfl]
  show _ :: ([("top/a", wFile)] ++ (entriesNode "top/sub"
    (FSNode.dir "sub" ⟨9, 10, 11, 12⟩ ⟨493, by decide⟩ [wLink]) ++ [])) = _
  rw [entriesNode, entriesForest]
  rw [show wLink.name = "l" from rfl]
  rw [h3, entriesForest]
  rw [show entriesNode "top/sub/l" wLink = [("top/sub/l", wLink)] from rfl]
  rfl

/-- Witness for C7 at the concrete tree `wTree`: the file path occurs once,
the subdirectory path twice, and the last event is the root's second
header. -/
theorem C7_walker_emission_witness :
    ((osWalkNode false "top" wTree).filter (fun x => x.1 == "top/a")).length = 1
    ∧ ((osWalkNode false "top" wTree).filter
        (fun x => x.1 == "top/sub")).length = 2
    ∧ (osWalkNode false "top" wTree).getLast? = some ("top", wTree) := by
  have hnodup : ((entriesNode "top" wTree).map Prod.fst).Nodup := by
    rw [entriesNode_wTree]
    decide
  have h := C7_walker_emission FileCrcAtimeNsecMetadata "top" wTree rfl hnodup
  refine ⟨?_, ?_, h.2.1⟩
  · have hx := h.1 ("top/a", wFile)
      (by rw [entriesNode_wTree]; simp)
    simpa [wFile] using hx
  · have hx := h.1 ("top/sub", wSub)
      (by rw [entriesNode_wTree]; simp)
    simpa [wSub] using hx

/-! ## Claim C8 -/

/-- The send-list `filterMap` is the path projection of the mask filter. -/
theorem filterMap_sendIf (l : List (String × FSNode)) :
    (l.filterMap fun e =>
      if statMode e.2 &&& regularOrSymlink == 0 then some e.1 else none) =
      (l.filter fun e => statMode e.2 &&& regularOrSymlink == 0).map
        Prod.fst := by
  induction l with
  | nil => rfl
  | cons a rest ih =>
      by_cases h : (statMode a.2 &&& regularOrSymlink == 0) = true
      · simp only [List.filterMap_cons, List.filter_cons, if_pos h,
          List.map_cons, ih]
      · simp only [List.filterMap_cons, List.filter_cons, if_neg h, ih]

/-- C8: after a walk (ignore-symlinks off) over a tree with duplicate-free
paths, the send list is exactly the regular files and symlinks of the tree
in emission order (so request indices 0,1,… enumerate them), and no
directory path ever appears in it. -/
theorem C8_sendList (base : String) (t : FSNode)
    (hnodup : ((entriesNode base t).map Prod.fst).Nodup) :
    walkSendList false base t =
      ((entriesNode base t).filter
        (fun e => e.2.isFileNode || e.2.isLinkNode)).map Prod.fst
    ∧ ∀ e ∈ entriesNode base t, e.2.isDirNode = true →
        e.1 ∉ walkSendList false base t := by
  have hmain : walkSendList false base t =
      ((entriesNode base t).filter
        (fun e => e.2.isFileNode || e.2.isLinkNode)).map Prod.fst := by
    rw [walkSendList, filterMap_sendIf,
      List.filter_congr (fun a _ => mask_statMode a.2), walkNode_regLink]
  refine ⟨hmain, ?_⟩
  rintro ⟨q, n⟩ he hdirn hmem
  rw [hmain] at hmem
  obtain ⟨e2, he2mem, he2eq⟩ := List.mem_map.mp hmem
  have he2entries := List.mem_of_mem_filter he2mem
  have he2kind := List.of_mem_filter he2mem
  have he2n : e2 = (q, n) :=
    List.inj_on_of_nodup_map hnodup he2entries he he2eq
  rw [he2n] at he2kind
  cases n <;> simp_all

/-- Witness for C8 at the concrete tree `wTree`: exactly the file and the
symlink, in emission order. -/
theorem C8_sendList_witness :
    walkSendList false "top" wTree = ["top/a", "top/sub/l"] := by
  have hnodup : ((entriesNode "top" wTree).map Prod.fst).Nodup := by
    rw [entriesNode_wTree]
    decide
  have h := (C8_sendList "top" wTree hnodup).1
  rw [h, entriesNode_wTree]
  simp [wTree, wFile, wSub, wLink]

/-! ## Claim C6 -/

/-- The `lastName` loop variable holds the last processed path. -/
theorem lastName_foldl (ps : List String) (init : String) :
    ps.foldl (fun _ p => p) init = ps.getLastD init := by
  induction ps generalizing init with
  | nil => rfl
  | cons a rest ih =>
      rw [List.foldl_cons, ih]
      cases rest <;> simp [List.getLastD]

/-- C6 counterexample: when no item was processed (empty `lastName`), the
receiver emits only the bare 16-byte result header — no result extension
follows, contrary to the claim that the extension is emitted on every
run. -/
theorem C6_counterexample :
    phaseAckBytes [] = le32 0 ++ le32 0 ++ le64 0xdeadc0de
    ∧ (phaseAckBytes []).length = 16 := by
  constructor <;> rfl

/-- A string has length 0 exactly when it is empty. -/
theorem string_length_eq_zero (s : String) : s.length = 0 ↔ s = "" := by
  cases s with
  | mk data =>
      constructor
      · intro h
        rw [List.length_eq_zero.mp h]
      · intro h
        rw [h]
        rfl

/-- C6 amended: after each phase the receiver emits a 16-byte result header
with `error_code` 0 (and `crc32 = 0xdeadc0de`), followed by a result
extension carrying the last processed path — but the extension is only
present when at least one item (with a non-empty path) was processed; on a
run with no processed items only the bare header is emitted. -/
theorem C6_amended (ps : List String) (hne : ps.getLastD "" ≠ "") :
    (phaseAckBytes ps).take 16 = le32 0 ++ le32 0 ++ le64 0xdeadc0de
    ∧ (phaseAckBytes ps).drop 16 =
        le32 ((ps.getLastD "").length + 1) ++
          (ps.getLastD "").toList.map Char.toNat ++ [0] := by
  have hlen16 : (resultHeader.marshallBinary
      { ErrorCode := 0, Pad := 0, Crc32 := 0xdeadc0de }).length = 16 := rfl
  have hlenne : ¬((ps.getLastD "").length == 0) = true := by
    simp only [beq_iff_eq, string_length_eq_zero]
    exact hne
  rw [phaseAckBytes, sendStatusAndCrc, lastName_foldl, if_neg hlenne]
  constructor
  · rw [List.take_left' hlen16]
    rfl
  · rw [List.drop_left' hlen16]
    rw [resultHeaderExtBytes, WritePathBytes, if_neg hlenne, List.append_assoc]

/-- Witness for C6 amended: with one processed path `"f"`, the bytes after
the 16-byte header are the 4-byte length 2, the byte of `f`, and the NUL. -/
theorem C6_amended_witness :
    (phaseAckBytes ["f"]).take 16 = le32 0 ++ le32 0 ++ le64 0xdeadc0de
    ∧ (phaseAckBytes ["f"]).drop 16 = [2, 0, 0, 0, 102, 0] := by
  have h := C6_amended ["f"] (by decide)
  refine ⟨h.1, ?_⟩
  rw [h.2]
  rfl

/-! ## Claim C10 -/

/-- C10: for a `NewReceiver`-built receiver, a regular-file content transfer
that fails before `file_len` bytes arrived leaves any pre-existing target
untouched and removes the tempfile (the target is never removed on the
failure path); when the full payload arrives, the target is removed and
re-linked only after the payload was written to the tempfile, leaving the
new content at the target and no tempfile. -/
theorem C10_atomic_write (fileLen : Nat) (inp : List Nat) (fs : FileFS)
    (hsize : fileLen ≤ MaxTransfer) :
    (inp.length < fileLen →
      (receiveRegularFileFullData fileLen inp).1.isOk = false
      ∧ ((receiveRegularFileFullData fileLen inp).2.foldl applyOp fs).target
          = fs.target
      ∧ ((receiveRegularFileFullData fileLen inp).2.foldl applyOp fs).temp
          = none
      ∧ FsOp.removeTarget ∉ (receiveRegularFileFullData fileLen inp).2)
    ∧ (fileLen ≤ inp.length →
      (receiveRegularFileFullData fileLen inp).1.isOk = true
      ∧ (receiveRegularFileFullData fileLen inp).2 =
          [.createTemp, .writeTemp (inp.take fileLen), .removeTarget,
            .linkTempToTarget, .removeTemp]
      ∧ ((receiveRegularFileFullData fileLen inp).2.foldl applyOp fs).target
          = some (inp.take fileLen)
      ∧ ((receiveRegularFileFullData fileLen inp).2.foldl applyOp fs).temp
          = none) := by
  have hbig : ¬ fileLen > MaxTransfer := by omega
  constructor
  · intro hshort
    have hle : ¬ fileLen ≤ inp.length := by omega
    rw [receiveRegularFileFullData, if_neg hbig, if_neg hle]
    refine ⟨rfl, ?_, ?_, ?_⟩
    · simp [List.foldl_cons, applyOp]
    · simp [List.foldl_cons, applyOp]
    · simp
  · intro hle'
    rw [receiveRegularFileFullData, if_neg hbig, if_pos hle']
    refine ⟨rfl, rfl, ?_, ?_⟩
    · simp [List.foldl_cons, applyOp]
    · simp [List.foldl_cons, applyOp]

/-- Witness for C10 at concrete inputs: a 3-byte file with only 2 bytes
available fails with the target preserved and the tempfile gone; with all
3 bytes available the target receives the payload. -/
theorem C10_atomic_write_witness :
    ((receiveRegularFileFullData 3 [1, 2]).1.isOk = false
      ∧ ((receiveRegularFileFullData 3 [1, 2]).2.foldl applyOp
          { target := some [9], temp := none }).target = some [9])
    ∧ ((receiveRegularFileFullData 3 [1, 2, 3]).2.foldl applyOp
        { target := some [9], temp := none }).target = some [1, 2, 3] := by
  have h1 := (C10_atomic_write 3 [1, 2] { target := some [9], temp := none }
    (by decide)).1 (by decide)
  have h2 := (C10_atomic_write 3 [1, 2, 3] { target := some [9], temp := none }
    (by decide)).2 (by decide)
  exact ⟨⟨h1.1, h1.2.1⟩, by simpa using h2.2.2.1⟩

/-! ## Claims C1 and C2 -/

/-- A path in the deletion set that no event mentions survives the
transfer (snapshots only add, and mentions of other paths keep it). -/
theorem mem_deletionsAfter (s : List String) (events : List DelEvent)
    (p : String) (hmem : p ∈ s)
    (hnm : ∀ e ∈ events, e ≠ DelEvent.mention p) :
    p ∈ events.foldl delStep s := by
  induction events generalizing s with
  | nil => exact hmem
  | cons ev rest ih =>
      rw [List.foldl_cons]
      refine ih _ ?_ (fun e he => hnm e (List.mem_cons_of_mem _ he))
      cases ev with
      | mention q =>
          have hq : q ≠ p := by
            intro h
            exact (hnm _ (List.mem_cons_self _ _)) (by rw [h])
          simp only [delStep]
          rw [List.mem_filter]
          exact ⟨hmem, bne_iff_ne.mpr (Ne.symm hq)⟩
      | snapshot ps => exact List.mem_append_left _ hmem

/-- A path outside the deletion set that no later snapshot re-adds stays
outside. -/
theorem not_mem_deletionsAfter (s : List String) (events : List DelEvent)
    (p : String) (hmem : p ∉ s)
    (hnr : ∀ e ∈ events, DelEvent.readds p e = false) :
    p ∉ events.foldl delStep s := by
  induction events generalizing s with
  | nil => exact hmem
  | cons ev rest ih =>
      rw [List.foldl_cons]
      refine ih _ ?_ (fun e he => hnr e (List.mem_cons_of_mem _ he))
      cases ev with
      | mention q =>
          intro hc
          exact hmem (List.mem_of_mem_filter hc)
      | snapshot ps =>
          intro hc
          rcases List.mem_append.mp hc with h | h
          · exact hmem h
          · have hrd := hnr _ (List.mem_cons_self _ _)
            simp only [DelEvent.readds] at hrd
            rw [show (List.contains ps p) = List.elem p ps from rfl,
              List.elem_eq_true_of_mem h] at hrd
            cases hrd

/-- C1 (spec-modelled): after a completed transfer, every path present in
the receiver's pre-transfer snapshot that is never mentioned by a sender
header remains in the deletion set and is deleted in post-processing, while
every mentioned path (not re-added by a later directory snapshot — in the
protocol, a path's parent directory is snapshotted before the path's own
header arrives) is removed from the set and retained. -/
theorem C1_deletion_set (s0 : List String) (events : List DelEvent)
    (p : String) :
    (p ∈ s0 → (∀ e ∈ events, e ≠ DelEvent.mention p) →
      p ∈ deletionsAfter s0 events)
    ∧ (∀ es1 es2, events = es1 ++ DelEvent.mention p :: es2 →
      (∀ e ∈ es2, DelEvent.readds p e = false) →
      p ∉ deletionsAfter s0 events) := by
  constructor
  · exact fun h1 h2 => mem_deletionsAfter s0 events p h1 h2
  · intro es1 es2 hev hnr
    rw [deletionsAfter, hev, List.foldl_append, List.foldl_cons]
    apply not_mem_deletionsAfter _ _ _ ?_ hnr
    simp only [delStep]
    intro hc
    have hcond := List.of_mem_filter hc
    simp at hcond

/-- Witness for C1 at concrete inputs: the never-mentioned path `stale` is
deleted, the mentioned path `kept` is retained, and a path discovered by a
directory snapshot and then mentioned is retained as well. -/
theorem C1_deletion_set_witness :
    "stale" ∈ deletionsAfter ["stale", "kept"]
      [DelEvent.mention "kept", DelEvent.snapshot ["sub"],
        DelEvent.mention "sub"]
    ∧ "kept" ∉ deletionsAfter ["stale", "kept"]
      [DelEvent.mention "kept", DelEvent.snapshot ["sub"],
        DelEvent.mention "sub"] := by
  constructor
  · exact (C1_deletion_set ["stale", "kept"] _ "stale").1 (by decide)
      (by decide)
  · exact (C1_deletion_set ["stale", "kept"] _ "kept").2 []
      [DelEvent.snapshot ["sub"], DelEvent.mention "sub"] rfl (by decide)

/-- C2 (spec-modelled): when the receiver's initial one-level snapshot of
its working directory contains an entry with a blacklisted name (bin, boot,
dev, etc, home, lost+found, media, mnt, opt, proc, root, sbin, srv, sys,
usr or var), the run aborts before any filesystem modification or deletion
(no deletion list is ever produced). -/
theorem C2_blacklist (snapshot0 : List String) (events : List DelEvent)
    (name : String) (hmem : name ∈ snapshot0) (hbl : name ∈ blacklist) :
    receiverRun snapshot0 events = .error "receiver is not confined" := by
  rw [receiverRun, if_pos]
  rw [List.any_eq_true]
  refine ⟨name, hmem, ?_⟩
  rw [show (List.contains blacklist name) = List.elem name blacklist from rfl,
    List.elem_eq_true_of_mem hbl]

/-- Witness for C2: a working directory containing an entry named `etc`
makes the receiver abort before any deletion. -/
theorem C2_blacklist_witness :
    receiverRun ["etc", "work"] [DelEvent.mention "work"] =
      .error "receiver is not confined" :=
  C2_blacklist ["etc", "work"] [DelEvent.mention "work"] "etc" (by decide)
    (by decide)

/-! ## Claim C4 -/

/-- `sendItemMetadata` never changes the mode word of the stat header. -/
theorem sendItemMetadataHeader_Mode (c : Nat) (p : String) (t : FSNode) :
    (sendItemMetadataHeader c p t).Mode = statMode t := by
  rw [sendItemMetadataHeader_eq]
  split_ifs <;> rfl

/-- `sendItemMetadata` never changes the name length. -/
theorem sendItemMetadataHeader_NameLen (c : Nat) (p : String) (t : FSNode) :
    (sendItemMetadataHeader c p t).NameLen = p.length + 1 := by
  rw [sendItemMetadataHeader_eq]
  split_ifs <;> rfl

/-- `sendItemMetadata` never changes the file length. -/
theorem sendItemMetadataHeader_FileLen (c : Nat) (p : String) (t : FSNode) :
    (sendItemMetadataHeader c p t).FileLen = nodeSize t := by
  rw [sendItemMetadataHeader_eq]
  split_ifs <;> rfl

/-- `sendItemMetadata` never changes the mtime seconds. -/
theorem sendItemMetadataHeader_Mtime (c : Nat) (p : String) (t : FSNode) :
    (sendItemMetadataHeader c p t).Mtime = t.st.Mtime := by
  rw [sendItemMetadataHeader_eq]
  split_ifs <;> rfl

/-- `sendItemMetadata` never changes the mtime nanoseconds. -/
theorem sendItemMetadataHeader_MtimeNsec (c : Nat) (p : String) (t : FSNode) :
    (sendItemMetadataHeader c p t).MtimeNsec = t.st.MtimeNsec := by
  rw [sendItemMetadataHeader_eq]
  split_ifs <;> rfl

mutual

/-- Every event of a walk is an entry of the tree. -/
theorem osWalkNode_subset (ig : Bool) (base : String) (t : FSNode) :
    ∀ e ∈ osWalkNode ig base t, e ∈ entriesNode base t := by
  cases t with
  | file n st perm c =>
      intro e he
      simpa [osWalkNode, entriesNode] using he
  | symlink n st tgt =>
      intro e he
      simp only [osWalkNode] at he
      cases ig with
      | true => simp at he
      | false => simpa [entriesNode] using he
  | other n st perm k =>
      intro e he
      simpa [osWalkNode, entriesNode] using he
  | dir n st perm cs =>
      intro e he
      simp only [osWalkNode, List.mem_cons, List.mem_append,
        List.not_mem_nil, or_false] at he
      simp only [entriesNode, List.mem_cons]
      rcases he with h | h | h
      · exact Or.inl h
      · exact Or.inr (osWalkForest_subset ig base cs e h)
      · exact Or.inl h

/-- Forest version of `osWalkNode_subset`. -/
theorem osWalkForest_subset (ig : Bool) (dirPath : String) (ts : List FSNode) :
    ∀ e ∈ osWalkForest ig dirPath ts, e ∈ entriesForest dirPath ts := by
  cases ts with
  | nil =>
      intro e he
      simp [osWalkForest] at he
  | cons c rest =>
      intro e he
      simp only [osWalkForest, List.mem_append] at he
      simp only [entriesForest, List.mem_append]
      rcases he with h | h
      · exact Or.inl (osWalkNode_subset ig (joinPath dirPath c.name) c e h)
      · exact Or.inr (osWalkForest_subset ig dirPath rest e h)

end

/-- `Eq` (part_006) holds when all compared fields agree — including the
atime fields — with the usual symlink exception for the time fields. -/
theorem Eq_eq_true (lh hdr : fileHeaderData) (h1 : lh.NameLen = hdr.NameLen)
    (h2 : lh.Mode = hdr.Mode) (h3 : lh.FileLen = hdr.FileLen)
    (h4 : (lh.isSymlink = true ∧ hdr.isSymlink = true) ∨
      (lh.Atime = hdr.Atime ∧ lh.AtimeNsec = hdr.AtimeNsec ∧
        lh.Mtime = hdr.Mtime ∧ lh.MtimeNsec = hdr.MtimeNsec)) :
    lh.Eq hdr = true := by
  rcases h4 with ⟨ha, hb⟩ | ⟨ha, hb, hc, hd⟩
  · simp [fileHeaderData.Eq, fileHeaderData.EqErrs, h1, h2, h3, ha, hb]
  · simp [fileHeaderData.Eq, fileHeaderData.EqErrs, h1, h2, h3, ha, hb, hc, hd]

/-- If every header of a metadata stream is a directory header or a
size-bounded file/symlink header that is `Eq` to the local stat, the
computed request list is empty. -/
theorem metaRequests_ok_nil (localStat : String → Option fileHeaderData)
    (stream : List (String × fileHeaderData)) (idx : Nat)
    (hgood : ∀ e ∈ stream, e.2.isDir = true ∨
      ((e.2.isSymlink || e.2.isRegular) = true ∧ e.2.FileLen ≤ MaxTransfer ∧
        ∃ lh, localStat e.1 = some lh ∧ lh.Eq e.2 = true)) :
    metaRequests localStat stream idx = .ok [] := by
  induction stream generalizing idx with
  | nil => rfl
  | cons a rest ih =>
      obtain ⟨p, hdr⟩ := a
      have hgoodrest : ∀ e ∈ rest, e.2.isDir = true ∨
          ((e.2.isSymlink || e.2.isRegular) = true ∧
            e.2.FileLen ≤ MaxTransfer ∧
            ∃ lh, localStat e.1 = some lh ∧ lh.Eq e.2 = true) :=
        fun e he => hgood e (List.mem_cons_of_mem _ he)
      by_cases hd : hdr.isDir = true
      · simp only [metaRequests, hd, if_true]
        exact ih idx hgoodrest
      · rcases hgood (p, hdr) (List.mem_cons_self _ _) with hd' | ⟨hk, hs, lh, hls, heq⟩
        · exact absurd hd' hd
        · have hsize : ¬ hdr.FileLen > MaxTransfer := by
            simp only [gt_iff_lt, not_lt]
            exact hs
          simp only [metaRequests, hd, Bool.false_eq_true, if_false, hk,
            if_true, hsize, ih (idx + 1) hgoodrest, hls]
          rw [if_pos heq]

/-- With CRC usage off, `sendItemMetadata` emits the stat header
unchanged. -/
theorem sendItemMetadataHeader_crcOff (p : String) (t : FSNode) :
    sendItemMetadataHeader FileCrcOff p t = newFileHeaderFromStat p t := by
  rw [sendItemMetadataHeader_eq]
  split_ifs with h1 h2
  · rfl
  · simp [FileCrcOff, FileCrcAtimeNsec, FileCrcAtimeNsecMetadata] at h2
  · rfl

/-- C4 counterexample: under the default options (CRC usage metadata-only),
a second run over the unchanged tree `wTree` against a receiver state that
exactly mirrors it — precisely what a completed first run leaves, since the
content-phase headers carry the true stat times — requests index 0 (the
regular file): the sender put the content CRC into the metadata header's
`atime_nsec`, the local stat holds the real nanoseconds (2), and `Eq`
compares them.  The second-run request list is not empty, refuting the
claim as stated. -/
theorem C4_counterexample :
    metaRequests c4LocalStat
      (senderMetaStream FileCrcAtimeNsecMetadata false "top" wTree) 0 =
      .ok [0]
    ∧ (Except.ok [0] : Except String (List Nat)) ≠ .ok [] := by
  constructor
  · rfl
  · simp

/-- C4 amended: running the protocol twice with an identical tree (no
unsupported entry kinds, sizes within the receiver's bound) produces an
empty request list on the second run when the CRC usage is off — not under
the default metadata CRC usage — given the local stats a completed first
run leaves (exact mirror, including the atime fields, except for symlink
times). -/
theorem C4_amended (base : String) (t : FSNode)
    (localStat : String → Option fileHeaderData)
    (hNoOther : ∀ e ∈ entriesNode base t, e.2.isOtherNode = false)
    (hSizes : ∀ e ∈ entriesNode base t, nodeSize e.2 ≤ MaxTransfer)
    (hMirror : ∀ e ∈ entriesNode base t,
      ∃ lh, localStat e.1 = some lh ∧ MirrorsEntryExact lh e.1 e.2) :
    metaRequests localStat
      (senderMetaStream FileCrcOff false base t) 0 = .ok [] := by
  apply metaRequests_ok_nil
  intro e he
  rw [senderMetaStream, List.mem_map] at he
  obtain ⟨ev, hev, heq⟩ := he
  obtain ⟨q, n⟩ := ev
  subst heq
  rw [sendItemMetadataHeader_crcOff]
  have hent : (q, n) ∈ entriesNode base t := osWalkNode_subset false base t _ hev
  by_cases hd : n.isDirNode = true
  · left
    show modeIsDir (newFileHeaderFromStat q n).Mode = true
    show modeIsDir (statMode n) = true
    rw [modeIsDir_statMode]
    exact hd
  · right
    have hother := hNoOther _ hent
    have hkind : n.isFileNode = true ∨ n.isLinkNode = true := by
      cases n with
      | file _ _ _ _ => exact Or.inl rfl
      | symlink _ _ _ => exact Or.inr rfl
      | other _ _ _ _ => simp at hother
      | dir _ _ _ _ => simp at hd
    obtain ⟨lh, hls, hm1, hm2, hm3, hm4⟩ := hMirror _ hent
    refine ⟨?_, ?_, lh, hls, ?_⟩
    · show (modeIsSymlink (statMode n) || modeIsRegular (statMode n)) = true
      rw [modeIsSymlink_statMode, modeIsRegular_statMode]
      rcases hkind with h | h <;> simp [h]
    · show nodeSize n ≤ MaxTransfer
      exact hSizes _ hent
    · apply Eq_eq_true
      · exact hm1
      · exact hm2
      · exact hm3
      · rcases hkind with h | h
        · right
          rcases hm4 with hlink | hm4'
          · cases n <;> simp_all
          · exact hm4'
        · left
          constructor
          · show modeIsSymlink lh.Mode = true
            rw [hm2, modeIsSymlink_statMode]
            exact h
          · show modeIsSymlink (statMode n) = true
            rw [modeIsSymlink_statMode]
            exact h

/-- Witness for C4 amended at the concrete tree `wTree` with the exactly
mirroring local stat: with CRC usage off, the second run requests
nothing. -/
theorem C4_amended_witness :
    metaRequests c4LocalStat
      (senderMetaStream FileCrcOff false "top" wTree) 0 = .ok [] := by
  apply C4_amended
  · intro e he
    rw [entriesNode_wTree] at he
    simp only [List.mem_cons, List.not_mem_nil, or_false] at he
    rcases he with rfl | rfl | rfl | rfl <;> rfl
  · intro e he
    rw [entriesNode_wTree] at he
    simp only [List.mem_cons, List.not_mem_nil, or_false] at he
    rcases he with rfl | rfl | rfl | rfl <;> decide
  · intro e he
    rw [entriesNode_wTree] at he
    simp only [List.mem_cons, List.not_mem_nil, or_false] at he
    rcases he with rfl | rfl | rfl | rfl
    · exact ⟨newFileHeaderFromStat "top" wTree, rfl,
        rfl, rfl, rfl, Or.inr ⟨rfl, rfl, rfl, rfl⟩⟩
    · exact ⟨newFileHeaderFromStat "top/a" wFile, rfl,
        rfl, rfl, rfl, Or.inr ⟨rfl, rfl, rfl, rfl⟩⟩
    · exact ⟨newFileHeaderFromStat "top/sub" wSub, rfl,
        rfl, rfl, rfl, Or.inr ⟨rfl, rfl, rfl, rfl⟩⟩
    · exact ⟨newFileHeaderFromStat "top/sub/l" wLink, rfl,
        rfl, rfl, rfl, Or.inl rfl⟩

end QvmSync
